import Mathlib

/-!
Shallow embedding of the AniChart filter userscript
(`src/anichart-filter.user.js`) and proofs about the claims of its
specification.  The script filters content cards of a host page by the
color encoded in each card's highlight element, persists the selected
colors in `localStorage`, and keeps the page in sync through a debounced
refresh driven by a `MutationObserver`.
-/

namespace Anichart

/-! ### JavaScript values and the JS `Set`

Selection state lives in a JS `Set` built from `JSON.parse` output.  We
model JS values with an inductive type; objects other than arrays never
occur in the script's data flow, so they are omitted.  JS `Set`
membership uses SameValueZero: structural for primitives, reference
equality for objects.  Values freshly produced by `JSON.parse` are
pairwise distinct references, so array-valued elements compare unequal,
which `jsSameValueZero` reflects by returning `false` on arrays. -/

inductive JsValue where
  | null : JsValue
  | bool (b : Bool) : JsValue
  | num (n : Int) : JsValue
  | str (s : String) : JsValue
  | arr (elems : List JsValue) : JsValue

/-- SameValueZero comparison as used by the JS `Set`; arrays (objects)
compare by reference, and the freshly parsed values the script feeds into
its set are distinct references, hence the `false`. -/
def jsSameValueZero : JsValue → JsValue → Bool
  | JsValue.null, JsValue.null => true
  | JsValue.bool a, JsValue.bool b => a == b
  | JsValue.num a, JsValue.num b => a == b
  | JsValue.str a, JsValue.str b => a == b
  | _, _ => false

/-- Insertion into the modelled JS `Set` (kept as an ordered duplicate-free
list). -/
def setAdd (s : List JsValue) (v : JsValue) : List JsValue :=
  if s.any (fun x => jsSameValueZero x v) then s else s ++ [v]

/-- The `Set.prototype.has` membership test, applied by the script only to
string arguments. -/
def setHasStr (s : List JsValue) (v : String) : Bool :=
  s.any (fun x => jsSameValueZero x (JsValue.str v))

/-! ### JSON.parse model

Model of the platform `JSON.parse` used on line 15 of the script,
faithful on the wire format the script writes (an array of token
strings): whitespace, `null`, booleans, integer numerals, escape-free
strings and arrays.  Constructs outside this fragment (objects,
fractions, escape sequences) are parse errors in the model; on the
fragment the model agrees with the platform, including the requirement
that no non-whitespace input trails the value. -/

def isJsonWs (c : Char) : Bool :=
  c == ' ' || c == '\t' || c == '\n' || c == '\r'

def skipWs (cs : List Char) : List Char :=
  cs.dropWhile isJsonWs

/-- Scan of a JSON string body after the opening quote; escape sequences
are outside the modelled fragment. -/
def parseStringBody : List Char → List Char → Except String (String × List Char)
  | _, [] => Except.error "SyntaxError: unterminated string in JSON"
  | acc, c :: rest =>
    if c == '"' then Except.ok (String.mk acc.reverse, rest)
    else if c == '\\' then Except.error "SyntaxError: unsupported escape in JSON"
    else parseStringBody (c :: acc) rest

/-- Consume a run of decimal digits, accumulating their value. -/
def digitsToNat : Nat → List Char → Nat × List Char
  | acc, [] => (acc, [])
  | acc, c :: rest =>
    if c.isDigit then digitsToNat (acc * 10 + (c.toNat - 48)) rest
    else (acc, c :: rest)

/-- Match an exact literal suffix such as the `ull` of `null`. -/
def dropLit : List Char → List Char → Option (List Char)
  | [], cs => some cs
  | _ :: _, [] => none
  | p :: ps, c :: cs => if p == c then dropLit ps cs else none

mutual

def parseJsonValue : Nat → List Char → Except String (JsValue × List Char)
  | 0, _ => Except.error "SyntaxError: JSON input too deeply nested"
  | fuel + 1, cs =>
    match skipWs cs with
    | [] => Except.error "SyntaxError: unexpected end of JSON input"
    | c :: rest =>
      if c == '"' then
        (parseStringBody [] rest).map (fun p => (JsValue.str p.1, p.2))
      else if c == '[' then
        match skipWs rest with
        | ']' :: r2 => Except.ok (JsValue.arr [], r2)
        | _ =>
          (parseJsonElems fuel (skipWs rest)).map (fun p => (JsValue.arr p.1, p.2))
      else if c == 'n' then
        match dropLit ['u', 'l', 'l'] rest with
        | some r2 => Except.ok (JsValue.null, r2)
        | none => Except.error "SyntaxError: unexpected token in JSON"
      else if c == 't' then
        match dropLit ['r', 'u', 'e'] rest with
        | some r2 => Except.ok (JsValue.bool true, r2)
        | none => Except.error "SyntaxError: unexpected token in JSON"
      else if c == 'f' then
        match dropLit ['a', 'l', 's', 'e'] rest with
        | some r2 => Except.ok (JsValue.bool false, r2)
        | none => Except.error "SyntaxError: unexpected token in JSON"
      else if c == '-' then
        match rest with
        | d :: _ =>
          if d.isDigit then
            let p := digitsToNat 0 rest
            Except.ok (JsValue.num (-(Int.ofNat p.1)), p.2)
          else Except.error "SyntaxError: unexpected token in JSON"
        | [] => Except.error "SyntaxError: unexpected token in JSON"
      else if c.isDigit then
        let p := digitsToNat (c.toNat - 48) rest
        Except.ok (JsValue.num (Int.ofNat p.1), p.2)
      else Except.error "SyntaxError: unexpected token in JSON"

def parseJsonElems : Nat → List Char → Except String (List JsValue × List Char)
  | 0, _ => Except.error "SyntaxError: JSON input too deeply nested"
  | fuel + 1, cs => do
    let (v, r) ← parseJsonValue fuel cs
    match skipWs r with
    | ',' :: r2 =>
      let (vs, r3) ← parseJsonElems fuel r2
      Except.ok (v :: vs, r3)
    | ']' :: r2 => Except.ok ([v], r2)
    | _ => Except.error "SyntaxError: expected comma or bracket in JSON array"

end

/-- Model of `JSON.parse`: parse one value and reject trailing input. -/
def jsonParse (s : String) : Except String JsValue := do
  let (v, rest) ← parseJsonValue (s.length + 1) s.data
  match skipWs rest with
  | [] => Except.ok v
  | _ => Except.error "SyntaxError: unexpected non-whitespace after JSON"

/-! ### Startup load (script line 14-15)

`localStorage.getItem(STORAGE_KEY) || "[]"` substitutes the default both
for a missing key (`null`) and for the falsy empty string; the result
goes through `JSON.parse` un-guarded and then into `new Set(...)`. -/

def STORAGE_KEY : String := "anichart-selected-filters"

/-- The `getItem(...) || "[]"` step: `none` models a missing key. -/
def loadStoredItem : Option String → String
  | none => "[]"
  | some s => if s == "" then "[]" else s

/-- Model of the `new Set(iterable)` constructor on the values the parse
can produce: `null` gives an empty set, a string iterates into its
one-character strings, an array into its elements; numbers and booleans
are not iterable and throw. -/
def jsNewSet : JsValue → Except String (List JsValue)
  | JsValue.null => Except.ok []
  | JsValue.str s =>
    Except.ok (s.data.foldl (fun acc ch => setAdd acc (JsValue.str (String.mk [ch]))) [])
  | JsValue.arr xs => Except.ok (xs.foldl setAdd [])
  | JsValue.bool _ => Except.error "TypeError: boolean is not iterable"
  | JsValue.num _ => Except.error "TypeError: number is not iterable"

/-- The whole startup load of `SELECTED_COLORS` (line 15).  An `error`
result models an exception escaping the script's top level; the code has
no try/catch around this expression. -/
def loadSelection (stored : Option String) : Except String (List JsValue) := do
  let v ← jsonParse (loadStoredItem stored)
  jsNewSet v

/-! ### Color extraction and the visibility predicate (lines 17-18, 144, 158-164) -/

def KNOWN_COLORS : List String := ["green", "yellow", "red", "gray"]

def isAsciiAlpha (c : Char) : Bool :=
  ('a' ≤ c && c ≤ 'z') || ('A' ≤ c && c ≤ 'Z')

/-- Case-insensitive character comparison for the `/i` regex flag. -/
def charIEq (a b : Char) : Bool := a.toLower == b.toLower

/-- Match the fixed pattern letters at the head of the input
(case-insensitively), returning the remainder. -/
def dropPat : List Char → List Char → Option (List Char)
  | [], cs => some cs
  | _ :: _, [] => none
  | p :: ps, c :: cs => if charIEq p c then dropPat ps cs else none

/-- Characters of the fixed part of the case-insensitive regex
matching `--color-` followed by a captured letter run. -/
def colorPat : List Char := ['-', '-', 'c', 'o', 'l', 'o', 'r', '-']

/-- Leftmost match of the `COLOR_RE` regex: at each position try the
fixed prefix followed by at least one ASCII letter; the capture is the
maximal letter run, kept in its original case. -/
def execColorRe : List Char → Option String
  | [] => none
  | c :: cs =>
    match dropPat colorPat (c :: cs) with
    | some rest =>
      let letters := rest.takeWhile isAsciiAlpha
      if letters.isEmpty then execColorRe cs else some (String.mk letters)
    | none => execColorRe cs

/-- The `COLOR_RE.exec(highlighter.style.cssText)` step producing
`colorInCard` (`none` models the JS `null`). -/
def extractColor (cssText : String) : Option String :=
  execColorRe cssText.data

/-- JS truthiness of the `colorInCard` variable: `null` and the empty
string are falsy. -/
def jsTruthy : Option String → Bool
  | none => false
  | some s => !(s == "")

/-- The visibility expression of lines 160-163:
`noFilters || (colorInCard && has(colorInCard)) || (!colorInCard && has("gray"))`. -/
def shouldShow (sel : List JsValue) (colorInCard : Option String) : Bool :=
  (sel.length == 0)
  || (jsTruthy colorInCard && setHasStr sel (colorInCard.getD ""))
  || (!jsTruthy colorInCard && setHasStr sel "gray")

/-! ### Substring test for `textContent.includes("aired")` (line 149) -/

/-- Character-list prefix test used by the substring scan. -/
def matchesHere : List Char → List Char → Bool
  | [], _ => true
  | _ :: _, [] => false
  | p :: ps, c :: cs => p == c && matchesHere ps cs

/-- Scan every suffix for an occurrence of the pattern. -/
def scanContains (pat : List Char) : List Char → Bool
  | [] => matchesHere pat []
  | c :: cs => matchesHere pat (c :: cs) || scanContains pat cs

/-- The JS `String.prototype.includes` on our strings. -/
def strContains (s pat : String) : Bool :=
  scanContains pat.data s.data

/-! ### Cards and the refresh pass (lines 137-170)

A card is modelled by the pieces of DOM state the pass reads and
writes: the text of its first `episode` sub-element (if any), the
`cssText` of its first `highlighter` sub-element (if any), whether its
class list carries the aired marker, and its `style.display` value. -/

structure Card where
  episode : Option String
  highlighter : Option String
  aired : Bool
  display : String
deriving DecidableEq, Repr

/-- Condition of line 149: the episode element exists and its text
contains the substring `aired`. -/
def episodeHasAired : Option String → Bool
  | some t => strContains t "aired"
  | none => false

/-- Lines 148-153: add or remove the `anichart-filter-card-aired` class,
recomputed from the current text on every pass. -/
def airedStep (c : Card) : Card :=
  if episodeHasAired c.episode then { c with aired := true }
  else { c with aired := false }

/-- One iteration of the card loop (lines 146-165) on a card whose DOM
reads succeed: aired marker first; then, only if a highlighter exists,
the display write driven by `shouldShow`. -/
def refreshCard (sel : List JsValue) (c : Card) : Card :=
  let c := airedStep c
  match c.highlighter with
  | none => c
  | some css =>
    { c with display := if shouldShow sel (extractColor css) then "" else "none" }

/-- A card slot as the loop sees it: either its DOM reads behave, or
touching it raises an exception with the given message (the host DOM is
not under the script's control). -/
inductive DomCard where
  | ok (c : Card) : DomCard
  | faulty (e : String) : DomCard
deriving DecidableEq, Repr

/-- The per-card transformation when no exception interrupts the loop. -/
def stepDomCard (sel : List JsValue) : DomCard → DomCard
  | DomCard.ok c => DomCard.ok (refreshCard sel c)
  | DomCard.faulty e => DomCard.faulty e

/-- The card loop under the script's single try/catch: the first raised
exception aborts the loop, leaving the faulting card and every later
card untouched; the catch (lines 167-169) records the message instead of
re-throwing. -/
def refreshLoop (sel : List JsValue) : List DomCard → List DomCard × Option String
  | [] => ([], none)
  | c :: cs =>
    match c with
    | DomCard.ok card =>
      let r := refreshLoop sel cs
      (DomCard.ok (refreshCard sel card) :: r.1, r.2)
    | DomCard.faulty e => (c :: cs, some e)

/-- The whole `refresh` body: the resize dispatch of line 140 touches no
modelled state; the guard of lines 141-142 returns when no card is
found; otherwise the loop runs under the try/catch.  The function is
total — no exception ever escapes to the caller. -/
def refresh (sel : List JsValue) (cards : List DomCard) : List DomCard × Option String :=
  if cards.isEmpty then (cards, none)
  else refreshLoop sel cards

/-! ### Debounce (lines 16, 20, 28-35)

Time is a natural-number clock.  The single module-level timer variable
holds the scheduled fire time of the pending refresh, if any. -/

def REFRESH_DEBOUNCE_MS : Nat := 180

structure DebounceState where
  refreshTimer : Option Nat
deriving DecidableEq, Repr

/-- One call to `debounceRefresh` at time `now`: `clearTimeout` discards
whatever was pending, then a fresh timeout is scheduled
`REFRESH_DEBOUNCE_MS` in the future. -/
def debounceRefresh (now : Nat) (_s : DebounceState) : DebounceState :=
  { refreshTimer := some (now + REFRESH_DEBOUNCE_MS) }

/-- Execution times of the refresh body given the (increasing) times of
the `debounceRefresh` calls.  A pending timer fires when its time
arrives strictly before the next call; a `clearTimeout` racing the timer
at the very same instant cancels it; after the last call the pending
timer always fires. -/
def runDebounce : List Nat → DebounceState → List Nat
  | [], s =>
    match s.refreshTimer with
    | some t => [t]
    | none => []
  | now :: rest, s =>
    (match s.refreshTimer with
     | some t => if t < now then [t] else []
     | none => []) ++ runDebounce rest (debounceRefresh now s)

/-! ### Mutation watcher (lines 172-231)

A node carries exactly the boolean facts the callback asks of it;
`nodeType` is `1` for element nodes.  An attribute record (already
filtered to `style` by the observer configuration of lines 225-230)
carries whether `target.closest` finds a card. -/

structure MNode where
  nodeType : Nat
  isFilters : Bool
  hasFiltersInside : Bool
  isCard : Bool
  insideCard : Bool
  hasCardInside : Bool
deriving DecidableEq, Repr

inductive MRecord where
  | childList (addedNodes removedNodes : List MNode) : MRecord
  | attributes (closestCard : Bool) : MRecord

/-- Inner node loop (lines 185-204) over `[...addedNodes, ...removedNodes]`
threading the two pending flags, with the early break once both are set. -/
def scanNodes : List MNode → Bool → Bool → Bool × Bool
  | [], f, c => (f, c)
  | n :: rest, f, c =>
    if n.nodeType != 1 then scanNodes rest f c
    else
      let f' := if n.isFilters || n.hasFiltersInside then true else f
      let c' := if n.isCard || n.insideCard || n.hasCardInside then true else c
      if f' && c' then (f', c') else scanNodes rest f' c'

/-- Outer record loop (lines 179-212) with its own early break at the
top of each iteration. -/
def scanRecords : List MRecord → Bool → Bool → Bool × Bool
  | [], f, c => (f, c)
  | m :: rest, f, c =>
    if f && c then (f, c)
    else
      match m with
      | MRecord.childList added removed =>
        let p := scanNodes (added ++ removed) f c
        scanRecords rest p.1 p.2
      | MRecord.attributes closestCard =>
        scanRecords rest f (if closestCard then true else c)

/-- What one callback invocation does and the flag values it leaves
behind for the next invocation. -/
structure WatcherOutcome where
  didRepairControls : Bool
  didRequestRefresh : Bool
  pendingFiltersAfter : Bool
  pendingCardsAfter : Bool
deriving DecidableEq, Repr

/-- The observer callback (lines 178-223) on one batch, starting from
the cleared flags every invocation leaves behind: scan the records, then
act on and clear each flag that is set. -/
def observerCallback (ms : List MRecord) : WatcherOutcome :=
  let p := scanRecords ms false false
  { didRepairControls := p.1
    didRequestRefresh := p.2
    pendingFiltersAfter := if p.1 then false else p.1
    pendingCardsAfter := if p.2 then false else p.2 }

/-- Predicate of lines 190-191 on a single node, element check included. -/
def nodeTouchesFilters (n : MNode) : Bool :=
  n.nodeType == 1 && (n.isFilters || n.hasFiltersInside)

/-- Predicate of lines 194-201 on a single node, element check included. -/
def nodeTouchesCards (n : MNode) : Bool :=
  n.nodeType == 1 && (n.isCard || n.insideCard || n.hasCardInside)

/-- Whether a record can set the controls flag. -/
def recordTouchesFilters : MRecord → Bool
  | MRecord.childList added removed => (added ++ removed).any nodeTouchesFilters
  | MRecord.attributes _ => false

/-- Whether a record can set the cards flag. -/
def recordTouchesCards : MRecord → Bool
  | MRecord.childList added removed => (added ++ removed).any nodeTouchesCards
  | MRecord.attributes closestCard => closestCard

/-! ### Control surface and one-time setup (lines 37-127, 172-173, 233-238)

The document state the idempotence claims are about: how many filter
style blocks were appended, whether a host `.filters` container exists,
the control root divs present (each a list of checkbox inputs), and how
many observers were started.  Counting nodes rather than keeping a
boolean makes duplication observable. -/

structure FilterInput where
  value : String
  checked : Bool
  listenerCount : Nat
  listening : Bool
deriving DecidableEq, Repr

structure Doc where
  cssBlocks : Nat
  filtersPresent : Bool
  controlRoots : List (List FilterInput)
  observerCount : Nat
deriving DecidableEq, Repr

/-- Lines 120-126 applied to one input: attach the change listener only
when the `_anichart_listening` marker is absent, then restore the
checked state from the selection. -/
def fixInput (sel : List JsValue) (i : FilterInput) : FilterInput :=
  let i :=
    if i.listening then i
    else { i with listenerCount := i.listenerCount + 1, listening := true }
  { i with checked := setHasStr sel i.value }

/-- The freshly created checkbox inputs of lines 112-114. -/
def newInputs : List FilterInput :=
  KNOWN_COLORS.map (fun color => { value := color, checked := false, listenerCount := 0, listening := false })

/-- Lines 37-101: inject the style block unless `getElementById` already
finds one. -/
def initializeCss (d : Doc) : Doc :=
  if d.cssBlocks != 0 then d else { d with cssBlocks := d.cssBlocks + 1 }

/-- Lines 103-127: reuse the existing control root if `getElementById`
finds one, otherwise create it inside the first `.filters` container
(bailing out when none exists); in either case repair listeners and
checked state on every input of the (first) root. -/
def initializeHtml (sel : List JsValue) (d : Doc) : Doc :=
  match d.controlRoots with
  | root :: rest => { d with controlRoots := root.map (fixInput sel) :: rest }
  | [] =>
    if d.filtersPresent then
      { d with controlRoots := [newInputs.map (fixInput sel)] }
    else d

/-- Lines 172-173, 225-230: start the observer unless the module-level
handle is already set. -/
def setupObservers (d : Doc) : Doc :=
  if d.observerCount != 0 then d else { d with observerCount := d.observerCount + 1 }

/-- Lines 233-238, named `initialize` in the source: the final
`debounceRefresh()` call only touches the timer state modelled above and
no `Doc` field. -/
def initializeAll (sel : List JsValue) (d : Doc) : Doc :=
  setupObservers (initializeHtml sel (initializeCss d))

/-! ### Helper lemmas -/

lemma jsSameValueZero_str_iff (v : JsValue) (t : String) :
    jsSameValueZero v (JsValue.str t) = true ↔ v = JsValue.str t := by
  cases v <;> simp [jsSameValueZero]

lemma setHasStr_iff (S : List JsValue) (t : String) :
    setHasStr S t = true ↔ JsValue.str t ∈ S := by
  simp [setHasStr, List.any_eq_true, jsSameValueZero_str_iff]

lemma length_beq_zero_of_ne {S : List JsValue} (hS : S ≠ []) : (S.length == 0) = false := by
  cases S with
  | nil => exact absurd rfl hS
  | cons a l => rfl

lemma shouldShow_some_eq {S : List JsValue} {c : String} (hS : S ≠ []) (hc : c ≠ "") :
    shouldShow S (some c) = setHasStr S c := by
  have h1 : jsTruthy (some c) = true := by simp [jsTruthy, hc]
  simp [shouldShow, length_beq_zero_of_ne hS, h1]

lemma shouldShow_none_eq {S : List JsValue} (hS : S ≠ []) :
    shouldShow S none = setHasStr S "gray" := by
  simp [shouldShow, length_beq_zero_of_ne hS, jsTruthy]

lemma setHasStr_eq_false {S : List JsValue} {c : String} (h : JsValue.str c ∉ S) :
    setHasStr S c = false :=
  Bool.eq_false_iff.mpr (fun hb => h ((setHasStr_iff S c).mp hb))

/-! ### Claim theorems -/

/-- C2: the visibility predicate shows every card when the selection is
empty; with a non-empty selection a card with a (non-empty) color token
is shown iff the token is a member of the selection, and a card without
a token is shown iff the selection contains the `gray` token. -/
theorem c2_predicate (S : List JsValue) (c : String) (hc : c ≠ "") :
    shouldShow [] (some c) = true ∧ shouldShow [] none = true
  ∧ (S ≠ [] →
      ((shouldShow S (some c) = true ↔ JsValue.str c ∈ S)
      ∧ (shouldShow S none = true ↔ JsValue.str "gray" ∈ S))) := by
  refine ⟨rfl, rfl, fun hS => ⟨?_, ?_⟩⟩
  · rw [shouldShow_some_eq hS hc, setHasStr_iff]
  · rw [shouldShow_none_eq hS, setHasStr_iff]

/-- Witness for C2 at the selection containing `green` and the token `red`. -/
theorem c2_predicate_witness :
    shouldShow [] (some "red") = true ∧ shouldShow [] none = true
  ∧ (([JsValue.str "green"] : List JsValue) ≠ [] →
      ((shouldShow [JsValue.str "green"] (some "red") = true
          ↔ JsValue.str "red" ∈ [JsValue.str "green"])
      ∧ (shouldShow [JsValue.str "green"] none = true
          ↔ JsValue.str "gray" ∈ [JsValue.str "green"]))) :=
  c2_predicate [JsValue.str "green"] "red" (by decide)

/-- C3 counterexample: the regex does extract the out-of-palette token
`blue`, and with selection containing only `gray` the predicate hides
that card while it shows a card with no token — so an out-of-palette
token is not treated like an absent one, contrary to the claim. -/
theorem c3_counterexample :
    extractColor "background: var(--color-blue)" = some "blue"
  ∧ shouldShow [JsValue.str "gray"] (some "blue") = false
  ∧ shouldShow [JsValue.str "gray"] none = true :=
  ⟨rfl, rfl, rfl⟩

/-- C3 amended: the predicate is total, but a card whose extracted token
lies outside the known palette is treated as carrying that very token,
not as absent: with a non-empty selection it is shown iff the token is
literally a member, hence with selection containing only `gray` it is
hidden, while a card with no parsable token is shown. -/
theorem c3_amended (S : List JsValue) (t : String) (ht : t ≠ "")
    (hpal : t ∉ KNOWN_COLORS) (hS : S ≠ []) :
    (shouldShow S (some t) = true ↔ JsValue.str t ∈ S)
  ∧ (JsValue.str t ∉ S → shouldShow S (some t) = false)
  ∧ (S = [JsValue.str "gray"] →
      shouldShow S (some t) = false ∧ shouldShow S none = true) := by
  refine ⟨?_, ?_, ?_⟩
  · rw [shouldShow_some_eq hS ht, setHasStr_iff]
  · intro hmem
    rw [shouldShow_some_eq hS ht]
    exact setHasStr_eq_false hmem
  · rintro rfl
    have htg : t ≠ "gray" := by
      intro h
      exact hpal (h ▸ (by simp [KNOWN_COLORS]))
    constructor
    · rw [shouldShow_some_eq hS ht]
      refine setHasStr_eq_false ?_
      simp [htg]
    · rfl

/-- Witness for C3's amended claim at the token `blue` and the selection
containing only `gray`. -/
theorem c3_amended_witness :
    (shouldShow [JsValue.str "gray"] (some "blue") = true
        ↔ JsValue.str "blue" ∈ [JsValue.str "gray"])
  ∧ (JsValue.str "blue" ∉ ([JsValue.str "gray"] : List JsValue) →
      shouldShow [JsValue.str "gray"] (some "blue") = false)
  ∧ (([JsValue.str "gray"] : List JsValue) = [JsValue.str "gray"] →
      shouldShow [JsValue.str "gray"] (some "blue") = false
      ∧ shouldShow [JsValue.str "gray"] none = true) :=
  c3_amended [JsValue.str "gray"] "blue" (by decide) (by decide) (List.cons_ne_nil _ _)

/-- C1 counterexample: a malformed stored value makes the un-guarded
`JSON.parse` of line 15 throw, so the load fails instead of producing
the empty selection the claim promises. -/
theorem c1_counterexample :
    loadSelection (some "oops") = Except.error "SyntaxError: unexpected token in JSON"
  ∧ loadSelection (some "oops") ≠ Except.ok [] :=
  ⟨rfl, fun h => nomatch h⟩

/-- C1 amended: a missing stored value does load as the empty selection
(the `|| "[]"` default), but a malformed stored value is not tolerated:
the `JSON.parse` exception propagates out of the load. -/
theorem c1_amended (s e : String) (hs : s ≠ "") (he : jsonParse s = Except.error e) :
    loadSelection none = Except.ok []
  ∧ loadSelection (some s) = Except.error e := by
  refine ⟨rfl, ?_⟩
  have h1 : loadStoredItem (some s) = s := by simp [loadStoredItem, hs]
  unfold loadSelection
  rw [h1, he]
  rfl

/-- Witness for C1's amended claim at the malformed stored value `oops`. -/
theorem c1_amended_witness :
    loadSelection none = Except.ok []
  ∧ loadSelection (some "oops") = Except.error "SyntaxError: unexpected token in JSON" :=
  c1_amended "oops" "SyntaxError: unexpected token in JSON" (by decide) rfl

lemma refreshLoop_all_ok (sel : List JsValue) (cards : List Card) :
    refreshLoop sel (cards.map DomCard.ok)
      = (cards.map (fun c => DomCard.ok (refreshCard sel c)), none) := by
  induction cards with
  | nil => rfl
  | cons a rest ih => simp [refreshLoop, ih]

lemma refreshLoop_fault (sel : List JsValue) (pre : List DomCard) (e : String)
    (post : List DomCard) (hpre : ∀ c ∈ pre, ∃ k, c = DomCard.ok k) :
    refreshLoop sel (pre ++ DomCard.faulty e :: post)
      = (pre.map (stepDomCard sel) ++ DomCard.faulty e :: post, some e) := by
  induction pre with
  | nil => rfl
  | cons a rest ih =>
    obtain ⟨k, hk⟩ := hpre a (List.mem_cons_self a rest)
    subst hk
    simp [refreshLoop, stepDomCard,
      ih (fun c hc => hpre c (List.mem_cons_of_mem _ hc))]

/-- C4 counterexample: a fault on the first card is caught and logged,
but the following card is left completely untouched even though
processing it would have changed its display — the catch sits outside
the card loop, so one bad card does abort the rest of the pass. -/
theorem c4_counterexample :
    refresh [] [DomCard.faulty "boom",
        DomCard.ok { episode := none, highlighter := some "", aired := false, display := "none" }]
      = ([DomCard.faulty "boom",
          DomCard.ok { episode := none, highlighter := some "", aired := false, display := "none" }],
         some "boom")
  ∧ refreshCard [] { episode := none, highlighter := some "", aired := false, display := "none" }
      ≠ { episode := none, highlighter := some "", aired := false, display := "none" } :=
  ⟨rfl, by decide⟩

/-- C4 amended: `refresh` never propagates an exception — the single
try/catch wrapping the whole body records the fault instead — and a
fault-free pass processes every card; but the catch sits outside the
per-card loop, so a fault while processing one card aborts the rest of
the pass: the cards before the fault are processed and the faulting card
and every later card are left untouched. -/
theorem c4_refresh_faults (sel : List JsValue) (pre post : List DomCard) (e : String)
    (hpre : ∀ c ∈ pre, ∃ k, c = DomCard.ok k) :
    refresh sel (pre ++ DomCard.faulty e :: post)
      = (pre.map (stepDomCard sel) ++ DomCard.faulty e :: post, some e)
  ∧ ∀ okcards : List Card,
      refresh sel (okcards.map DomCard.ok)
        = ((okcards.map DomCard.ok).map (stepDomCard sel), none) := by
  constructor
  · have hne : (pre ++ DomCard.faulty e :: post).isEmpty = false := by
      cases pre <;> rfl
    simp only [refresh, hne, Bool.false_eq_true, if_false]
    exact refreshLoop_fault sel pre e post hpre
  · intro okcards
    cases okcards with
    | nil => rfl
    | cons a rest =>
      have hne : ((a :: rest).map DomCard.ok).isEmpty = false := rfl
      simp only [refresh, hne, Bool.false_eq_true, if_false]
      rw [refreshLoop_all_ok]
      simp [stepDomCard, List.map_map, Function.comp]

/-- Witness for C4's amended claim: one processed card before the fault,
one untouched card after it. -/
theorem c4_refresh_faults_witness :
    refresh [] ([DomCard.ok { episode := none, highlighter := some "", aired := false, display := "none" }]
        ++ DomCard.faulty "boom" :: [DomCard.ok { episode := none, highlighter := none, aired := true, display := "x" }])
      = ([DomCard.ok { episode := none, highlighter := some "", aired := false, display := "none" }].map
            (stepDomCard [])
          ++ DomCard.faulty "boom" :: [DomCard.ok { episode := none, highlighter := none, aired := true, display := "x" }],
         some "boom")
  ∧ ∀ okcards : List Card,
      refresh [] (okcards.map DomCard.ok)
        = ((okcards.map DomCard.ok).map (stepDomCard []), none) :=
  c4_refresh_faults []
    [DomCard.ok { episode := none, highlighter := some "", aired := false, display := "none" }]
    [DomCard.ok { episode := none, highlighter := none, aired := true, display := "x" }] "boom"
    (by intro c hc
        simp only [List.mem_singleton] at hc
        exact ⟨_, hc⟩)

/-- C7: a card without a highlight sub-element keeps its display value
through a refresh step, while the aired-marker step is still applied to
it. -/
theorem c7_no_highlighter (sel : List JsValue) (c : Card) (h : c.highlighter = none) :
    (refreshCard sel c).display = c.display
  ∧ (refreshCard sel c).aired = episodeHasAired c.episode := by
  cases hb : episodeHasAired c.episode <;>
    simp [refreshCard, airedStep, hb, h]

/-- Witness for C7 at a concrete card with an aired episode text, no
highlighter and a previous display override. -/
theorem c7_no_highlighter_witness :
    (refreshCard [JsValue.str "green"]
        { episode := some "has aired", highlighter := none, aired := false, display := "none" }).display
      = ({ episode := some "has aired", highlighter := none, aired := false, display := "none" } : Card).display
  ∧ (refreshCard [JsValue.str "green"]
        { episode := some "has aired", highlighter := none, aired := false, display := "none" }).aired
      = episodeHasAired ({ episode := some "has aired", highlighter := none, aired := false, display := "none" } : Card).episode :=
  c7_no_highlighter [JsValue.str "green"]
    { episode := some "has aired", highlighter := none, aired := false, display := "none" } rfl

/-- C8: a fault-free pass processes every enumerated card, and the aired
marker after a refresh step equals the freshly computed predicate on the
card's current status text — independent of whatever marker the card
carried before, so a stale marker is always removed. -/
theorem c8_aired_fresh (sel : List JsValue) (cards : List Card) :
    (refresh sel (cards.map DomCard.ok)).1
      = cards.map (fun c => DomCard.ok (refreshCard sel c))
  ∧ ∀ c : Card, (refreshCard sel c).aired = episodeHasAired c.episode := by
  constructor
  · cases cards with
    | nil => rfl
    | cons a rest =>
      have hne : ((a :: rest).map DomCard.ok).isEmpty = false := rfl
      simp only [refresh, hne, Bool.false_eq_true, if_false]
      rw [refreshLoop_all_ok]
  · intro c
    cases hh : c.highlighter <;> cases hb : episodeHasAired c.episode <;>
      simp [refreshCard, airedStep, hb, hh]

/-! ### Debounce lemma and C5 -/

lemma runDebounce_pending (calls : List Nat) (prev : Nat)
    (h : (prev :: calls).Chain' (fun a b => a < b ∧ b < a + REFRESH_DEBOUNCE_MS)) :
    runDebounce calls { refreshTimer := some (prev + REFRESH_DEBOUNCE_MS) }
      = [calls.getLastD prev + REFRESH_DEBOUNCE_MS] := by
  induction calls generalizing prev with
  | nil => rfl
  | cons now rest ih =>
    obtain ⟨hgap, hchain⟩ := List.chain'_cons.mp h
    have hnf : ¬ (prev + REFRESH_DEBOUNCE_MS < now) := by omega
    simp only [runDebounce, hnf, if_false, List.nil_append, debounceRefresh]
    rw [ih now hchain, List.getLastD_cons]

/-- C5: any non-empty burst of `debounceRefresh` calls whose consecutive
gaps are below the 180-unit window produces exactly one execution of the
refresh body, 180 units after the last call; and a new call always
supersedes a pending timer, so at most one timer is ever outstanding. -/
theorem c5_debounce (calls : List Nat) (h1 : calls ≠ [])
    (h2 : calls.Chain' (fun a b => a < b ∧ b < a + REFRESH_DEBOUNCE_MS)) :
    runDebounce calls { refreshTimer := none }
      = [calls.getLastD 0 + REFRESH_DEBOUNCE_MS]
  ∧ ∀ now p : Nat,
      debounceRefresh now { refreshTimer := some p }
        = debounceRefresh now { refreshTimer := none } := by
  refine ⟨?_, fun now p => rfl⟩
  cases calls with
  | nil => exact absurd rfl h1
  | cons c cs =>
    simp only [runDebounce, List.nil_append, debounceRefresh]
    rw [runDebounce_pending cs c h2, List.getLastD_cons]

/-- Witness for C5: three calls 50 and 50 apart yield one refresh at
time 280. -/
theorem c5_debounce_witness :
    runDebounce [100, 150, 200] { refreshTimer := none }
      = [List.getLastD [100, 150, 200] 0 + REFRESH_DEBOUNCE_MS]
  ∧ ∀ now p : Nat,
      debounceRefresh now { refreshTimer := some p }
        = debounceRefresh now { refreshTimer := none } :=
  c5_debounce [100, 150, 200] (by decide)
    (by norm_num [List.chain'_cons, List.chain'_singleton, REFRESH_DEBOUNCE_MS])

/-! ### Watcher lemmas and C6 -/

lemma scanNodes_spec (ns : List MNode) (f c : Bool) :
    scanNodes ns f c = (f || ns.any nodeTouchesFilters, c || ns.any nodeTouchesCards) := by
  induction ns generalizing f c with
  | nil => simp [scanNodes]
  | cons n rest ih =>
    by_cases ht : (n.nodeType != 1) = true
    · have h1 : nodeTouchesFilters n = false := by
        simp only [nodeTouchesFilters, Bool.and_eq_false_iff]
        exact Or.inl (by simpa using ht)
      have h2 : nodeTouchesCards n = false := by
        simp only [nodeTouchesCards, Bool.and_eq_false_iff]
        exact Or.inl (by simpa using ht)
      simp only [scanNodes, List.any_cons, if_pos ht, ih, h1, h2]
      simp
    · have helem : (n.nodeType == 1) = true := by simpa using ht
      have h1 : nodeTouchesFilters n = (n.isFilters || n.hasFiltersInside) := by
        simp [nodeTouchesFilters, helem]
      have h2 : nodeTouchesCards n = (n.isCard || n.insideCard || n.hasCardInside) := by
        simp [nodeTouchesCards, helem]
      simp only [scanNodes, List.any_cons, if_neg ht, h1, h2]
      cases hA : (n.isFilters || n.hasFiltersInside) <;>
        cases hB : (n.isCard || n.insideCard || n.hasCardInside) <;>
          cases f <;> cases c <;>
            simp [ih, Bool.or_assoc]

lemma scanRecords_spec (ms : List MRecord) (f c : Bool) :
    scanRecords ms f c = (f || ms.any recordTouchesFilters, c || ms.any recordTouchesCards) := by
  induction ms generalizing f c with
  | nil => simp [scanRecords]
  | cons m rest ih =>
    cases m with
    | childList added removed =>
      cases f <;> cases c <;>
        simp [scanRecords, scanNodes_spec, ih,
          recordTouchesFilters, recordTouchesCards, Bool.or_assoc]
    | attributes closestCard =>
      cases f <;> cases c <;> cases closestCard <;>
        simp [scanRecords, ih, recordTouchesFilters, recordTouchesCards, Bool.or_assoc]

/-- C6: over any batch, control-surface repair is invoked iff some
child-list record adds or removes an element node that is or contains
the filters container; a debounced refresh is requested iff some
child-list record adds or removes an element node that is, sits inside,
or contains a card, or some style-attribute record targets an element
that `closest` resolves to a card; both pending flags are false after
the batch; and once both flags are set the record scan stops changing
anything. -/
theorem c6_watcher (ms : List MRecord) :
    (observerCallback ms).didRepairControls = ms.any recordTouchesFilters
  ∧ (observerCallback ms).didRequestRefresh = ms.any recordTouchesCards
  ∧ (observerCallback ms).pendingFiltersAfter = false
  ∧ (observerCallback ms).pendingCardsAfter = false
  ∧ ∀ rest : List MRecord, scanRecords rest true true = (true, true) := by
  refine ⟨?_, ?_, ?_, ?_, ?_⟩
  · simp [observerCallback, scanRecords_spec]
  · simp [observerCallback, scanRecords_spec]
  · simp only [observerCallback]
    cases hx : (scanRecords ms false false).1 <;> simp [hx]
  · simp only [observerCallback]
    cases hx : (scanRecords ms false false).2 <;> simp [hx]
  · intro rest
    rw [scanRecords_spec]
    simp

/-! ### Idempotence lemmas and C9 -/

lemma fixInput_idem (sel : List JsValue) (i : FilterInput) :
    fixInput sel (fixInput sel i) = fixInput sel i := by
  by_cases h : i.listening <;> simp [fixInput, h]

lemma map_fixInput_idem (sel : List JsValue) (l : List FilterInput) :
    (l.map (fixInput sel)).map (fixInput sel) = l.map (fixInput sel) := by
  induction l with
  | nil => rfl
  | cons a t ih => simp [fixInput_idem, ih]

/-- C9: the control-surface repair (`initializeHtml`) is idempotent —
repeating it changes neither the control markup, the checked states, nor
the listener counts — and the whole orchestrator setup (`initialize` in
the source) is idempotent on the document: re-running it duplicates no
style block, control root, or observer. -/
theorem c9_idempotent (sel : List JsValue) (d : Doc) :
    initializeHtml sel (initializeHtml sel d) = initializeHtml sel d
  ∧ initializeAll sel (initializeAll sel d) = initializeAll sel d := by
  obtain ⟨css, fp, roots, obs⟩ := d
  cases roots with
  | nil =>
    cases fp <;> cases css <;> cases obs <;>
      simp [initializeAll, initializeHtml, initializeCss, setupObservers,
        map_fixInput_idem, fixInput_idem]
  | cons r rest =>
    cases fp <;> cases css <;> cases obs <;>
      simp [initializeAll, initializeHtml, initializeCss, setupObservers,
        map_fixInput_idem, fixInput_idem]

/-! ### Set-membership lemmas and C10 -/

lemma mem_setAdd (init : List JsValue) (x : JsValue) (t : String) :
    JsValue.str t ∈ setAdd init x ↔ (JsValue.str t ∈ init ∨ JsValue.str t = x) := by
  unfold setAdd
  by_cases h : init.any (fun y => jsSameValueZero y x) = true
  · rw [if_pos h]
    constructor
    · exact Or.inl
    · rintro (hm | he)
      · exact hm
      · obtain ⟨y, hy, hsv⟩ := List.any_eq_true.mp h
        rw [← he, jsSameValueZero_str_iff] at hsv
        exact hsv ▸ hy
  · rw [if_neg h]
    simp [List.mem_append]

lemma mem_foldl_setAdd (l : List JsValue) (init : List JsValue) (t : String) :
    JsValue.str t ∈ l.foldl setAdd init ↔ (JsValue.str t ∈ init ∨ JsValue.str t ∈ l) := by
  induction l generalizing init with
  | nil => simp
  | cons x xs ih =>
    simp only [List.foldl_cons, ih, mem_setAdd, List.mem_cons, or_assoc]

/-- C10: a well-formed stored JSON array of strings loads verbatim — the
selection contains exactly those strings, with no palette filtering —
and if it is non-empty it acts as an active filter, hiding every card
whose extracted token is not literally one of the stored strings. -/
theorem c10_load_verbatim (stored : String) (tokens : List String)
    (hs : stored ≠ "")
    (hp : jsonParse stored = Except.ok (JsValue.arr (tokens.map JsValue.str))) :
    ∃ sel : List JsValue,
      loadSelection (some stored) = Except.ok sel
      ∧ (∀ t : String, JsValue.str t ∈ sel ↔ t ∈ tokens)
      ∧ (tokens ≠ [] → ∀ c : String, c ≠ "" → c ∉ tokens →
          shouldShow sel (some c) = false) := by
  refine ⟨(tokens.map JsValue.str).foldl setAdd [], ?_, ?_, ?_⟩
  · have h1 : loadStoredItem (some stored) = stored := by simp [loadStoredItem, hs]
    unfold loadSelection
    rw [h1, hp]
    rfl
  · intro t
    rw [mem_foldl_setAdd]
    simp
  · intro hne c hc hcmem
    have hmem : ∀ t : String,
        JsValue.str t ∈ (tokens.map JsValue.str).foldl setAdd [] ↔ t ∈ tokens := by
      intro t
      rw [mem_foldl_setAdd]
      simp
    have hSne : (tokens.map JsValue.str).foldl setAdd [] ≠ [] := by
      cases tokens with
      | nil => exact absurd rfl hne
      | cons t ts =>
        intro hnil
        have hm : JsValue.str t ∈ (List.map JsValue.str (t :: ts)).foldl setAdd [] :=
          (hmem t).mpr (List.mem_cons_self t ts)
        rw [hnil] at hm
        exact List.not_mem_nil _ hm
    rw [shouldShow_some_eq hSne hc]
    exact setHasStr_eq_false (fun hm => hcmem ((hmem c).mp hm))

/-- Witness for C10 at the stored value holding the single
out-of-palette token `blue`. -/
theorem c10_load_verbatim_witness :
    ∃ sel : List JsValue,
      loadSelection (some "[\"blue\"]") = Except.ok sel
      ∧ (∀ t : String, JsValue.str t ∈ sel ↔ t ∈ ["blue"])
      ∧ ((["blue"] : List String) ≠ [] → ∀ c : String, c ≠ "" → c ∉ ["blue"] →
          shouldShow sel (some c) = false) :=
  c10_load_verbatim "[\"blue\"]" ["blue"] (by decide) rfl

end Anichart
